import Mathlib

/-!
Verification development for the `watch-paradise` batch token checker
(`scripts/q-checker.py`).

Python strings are modelled as `List Char` (sequences of Unicode code
points).  The regex patterns used by the source are simple enough to be
embedded as deterministic scanning functions: every character class in
them is disjoint from the literal that follows it, so the greedy /
non-greedy semantics of `re.search` collapse to a single deterministic
scan at each candidate start position, with `re.search` trying start
positions left to right.
-/

/-- Whitespace characters as matched by `\s` / `str.strip()` (ASCII range). -/
def isSpaceChar (c : Char) : Bool :=
  c = ' ' || c = '\t' || c = '\n' || c = '\r' || c = '\x0b' || c = '\x0c'

/-- Decimal digit, as matched by `\d` (ASCII range). -/
def isDigitChar (c : Char) : Bool :=
  '0' ≤ c && c ≤ '9'

/-- Python `str.strip()`: drop whitespace from both ends. -/
def pyStrip (s : List Char) : List Char :=
  ((s.dropWhile isSpaceChar).reverse.dropWhile isSpaceChar).reverse

/-- Lexicographic comparison of code-point sequences; this is Python's
`<=` on `str`, the order used by `sorted(..., key=lambda x: x["q"])`. -/
def lexLe : List Char → List Char → Bool
  | [], _ => true
  | _ :: _, [] => false
  | a :: as, b :: bs => if a.toNat = b.toNat then lexLe as bs else decide (a.toNat < b.toNat)

/-- Does `pre` occur as a prefix of `s`?  (Helper for substring search.) -/
def hasPrefixL : List Char → List Char → Bool
  | [], _ => true
  | _ :: _, [] => false
  | a :: as, b :: bs => a = b && hasPrefixL as bs

/-- Python's substring test `needle in hay`. -/
def containsSub (needle : List Char) : List Char → Bool
  | [] => hasPrefixL needle []
  | c :: rest => hasPrefixL needle (c :: rest) || containsSub needle rest

/-- Drop `pre` from the front of `s` when it is a prefix; `none` otherwise. -/
def dropPre : List Char → List Char → Option (List Char)
  | [], s => some s
  | _ :: _, [] => none
  | a :: as, b :: bs => if a = b then dropPre as bs else none

/-- Leftmost-match search: `re.search` for a pattern of the form
`label` followed by a suffix pattern `m`.  At each start position, the
literal label must match and then `m` must accept the remaining text;
otherwise the next start position is tried. -/
def reSearch (label : List Char) (m : List Char → Option (List Char)) :
    List Char → Option (List Char)
  | [] => (dropPre label []).bind m
  | c :: rest =>
    match (dropPre label (c :: rest)).bind m with
    | some r => some r
    | none => reSearch label m rest

/-- Matcher for the regex fragment `\s*<[^>]*>`: optional whitespace,
then a markup tag.  Returns the text after the closing `>`.  Both
character classes are disjoint from their following literal, so the
greedy scan is exact. -/
def afterOpenTag (s : List Char) : Option (List Char) :=
  match s.dropWhile isSpaceChar with
  | '<' :: s2 =>
    match s2.dropWhile (fun c => c ≠ '>') with
    | '>' :: s4 => some s4
    | _ => none
  | _ => none

/-- Matcher for `\s*<[^>]*>([^<]+)<` (the name pattern after its label). -/
def matchName (s : List Char) : Option (List Char) :=
  (afterOpenTag s).bind fun s4 =>
    match s4.dropWhile (fun c => c ≠ '<') with
    | '<' :: _ =>
      match s4.takeWhile (fun c => c ≠ '<') with
      | [] => none
      | c :: cs => some (c :: cs)
    | _ => none

/-- The character class `[\d.]`. -/
def digitDotB (c : Char) : Bool := isDigitChar c || c = '.'

/-- Finish the rating pattern after the class run: `run` is the maximal
`[\d.]` run (it must be non-empty for `[\d.]+`), `rest` the text after
it, which must start with the literal `/10` and then the `<` closing
the capture. -/
def ratingTail (run rest : List Char) : Option (List Char) :=
  if run.isEmpty then none
  else if hasPrefixL ('/' :: '1' :: '0' :: '<' :: []) rest
  then some (run ++ ('/' :: '1' :: '0' :: []))
  else none

/-- Matcher for `\s*<[^>]*>([\d.]+/10)<` (the rating pattern after its
label).  The greedy class `[\d.]+` cannot backtrack into the literal
`/10` because `/` is outside the class, so only the maximal run can
match. -/
def matchRating (s : List Char) : Option (List Char) :=
  (afterOpenTag s).bind fun s4 =>
    ratingTail (s4.takeWhile digitDotB) (s4.dropWhile digitDotB)

/-- Matcher for `\s*<[^>]*>(\d{4})<` (the year pattern after its label). -/
def matchYear (s : List Char) : Option (List Char) :=
  (afterOpenTag s).bind fun s4 =>
    match s4 with
    | a :: b :: c :: d :: '<' :: _ =>
      if isDigitChar a && isDigitChar b && isDigitChar c && isDigitChar d
      then some (a :: b :: c :: d :: []) else none
    | _ => none

/-- Non-greedy capture `(.+?)` up to the literal `</` (DOTALL): the
shortest non-empty prefix of `s` followed by `</`.  `acc` holds the
reversed capture so far; its first character is taken unconditionally
because the capture must be non-empty. -/
def scanCloseGo (acc : List Char) : List Char → Option (List Char)
  | [] => none
  | '<' :: '/' :: _ => some acc.reverse
  | c :: rest => scanCloseGo (c :: acc) rest

/-- Matcher for `\s*<[^>]*>(.+?)</` (the summary pattern after its label). -/
def matchSummary (s : List Char) : Option (List Char) :=
  (afterOpenTag s).bind fun s4 =>
    match s4 with
    | [] => none
    | c :: rest => scanCloseGo (c :: []) rest

/-- Scan forward to the first `>` and return the text after it. -/
def tagEnd : List Char → Option (List Char)
  | [] => none
  | '>' :: rest => some rest
  | _ :: rest => tagEnd rest

/-- After an opening `<`, match `[^>]+>`: at least one non-`>` character
and then the closing `>`.  Returns the remaining text. -/
def dropTag : List Char → Option (List Char)
  | [] => none
  | '>' :: _ => none
  | _ :: rest => tagEnd rest

/-- Fuelled worker for `re.sub(r'<[^>]+>', '', s)`: delete every
leftmost non-overlapping tag.  Each step consumes at least one
character, so fuel `s.length` is always sufficient. -/
def stripTagsF : Nat → List Char → List Char
  | 0, _ => []
  | _ + 1, [] => []
  | fuel + 1, c :: rest =>
    if c = '<' then
      match dropTag rest with
      | some rest2 => stripTagsF fuel rest2
      | none => c :: stripTagsF fuel rest
    else c :: stripTagsF fuel rest

/-- The tag-deletion pass `re.sub(r'<[^>]+>', '', s)`. -/
def stripTags (s : List Char) : List Char := stripTagsF s.length s

/-- Fuelled worker for `re.sub(r'\s+', ' ', s)`: each maximal whitespace
run becomes a single space. -/
def collapseWsF : Nat → List Char → List Char
  | 0, _ => []
  | _ + 1, [] => []
  | fuel + 1, c :: rest =>
    if isSpaceChar c then ' ' :: collapseWsF fuel (rest.dropWhile isSpaceChar)
    else c :: collapseWsF fuel rest

/-- The whitespace-collapsing pass `re.sub(r'\s+', ' ', s)`. -/
def collapseWs (s : List Char) : List Char := collapseWsF s.length s

/-! ### Literal strings of the source (labels, markers, defaults) -/

/-- Label preceding the movie name (`نام:`), also the second page marker. -/
def labelName : List Char := "نام:".toList

/-- Label preceding the rating (`امتیاز:`). -/
def labelRating : List Char := "امتیاز:".toList

/-- Label preceding the release year (`سال انتشار:`). -/
def labelYear : List Char := "سال انتشار:".toList

/-- Label preceding the summary (`خلاصه:`). -/
def labelSummary : List Char := "خلاصه:".toList

/-- Page marker `جزئیات فیلم/سریال` (movie/series details). -/
def markerDetails : List Char := "جزئیات فیلم/سریال".toList

/-- Default value for a field whose pattern fails to match. -/
def unknownStr : List Char := "Unknown".toList

/-- Default summary when the summary pattern fails to match. -/
def noSummaryStr : List Char := "No summary available".toList

/-- Ellipsis marker appended to a truncated summary. -/
def ellipsisStr : List Char := "...".toList

/-- Key of the JSON success marker. -/
def okKey : List Char := "ok".toList

/-- Status string stored in every valid result. -/
def activeStr : List Char := "active".toList

/-- Result type tag for JSON responses. -/
def jsonTypeStr : List Char := "json".toList

/-- Result type tag for HTML responses. -/
def htmlTypeStr : List Char := "html".toList

/-! ### Field Extractor (`extract_movie_details`) -/

/-- Record built by `extract_movie_details`. -/
structure MovieDetails where
  name : List Char
  rating : List Char
  year : List Char
  summary : List Char
deriving DecidableEq

/-- `re.search(r'نام:\s*<[^>]*>([^<]+)<', html_content)`. -/
def nameSearch (html : List Char) : Option (List Char) :=
  reSearch labelName matchName html

/-- `re.search(r'امتیاز:\s*<[^>]*>([\d.]+/10)<', html_content)`. -/
def ratingSearch (html : List Char) : Option (List Char) :=
  reSearch labelRating matchRating html

/-- `re.search(r'سال انتشار:\s*<[^>]*>(\d{4})<', html_content)`. -/
def yearSearch (html : List Char) : Option (List Char) :=
  reSearch labelYear matchYear html

/-- `re.search(r'خلاصه:\s*<[^>]*>(.+?)</', html_content, re.DOTALL)`. -/
def summarySearch (html : List Char) : Option (List Char) :=
  reSearch labelSummary matchSummary html

/-- Name field: captured group stripped, else `"Unknown"`. -/
def extractName (html : List Char) : List Char :=
  match nameSearch html with
  | some cap => pyStrip cap
  | none => unknownStr

/-- Rating field: captured group stripped, else `"Unknown"`. -/
def extractRating (html : List Char) : List Char :=
  match ratingSearch html with
  | some cap => pyStrip cap
  | none => unknownStr

/-- Year field: captured group stripped, else `"Unknown"`. -/
def extractYear (html : List Char) : List Char :=
  match yearSearch html with
  | some cap => pyStrip cap
  | none => unknownStr

/-- Cleanup applied to the captured summary span: delete tags, collapse
whitespace runs, strip the ends. -/
def cleanSummary (cap : List Char) : List Char :=
  pyStrip (collapseWs (stripTags cap))

/-- Summary field: cleaned span, truncated to 500 characters plus an
ellipsis when longer; default `"No summary available"`. -/
def extractSummary (html : List Char) : List Char :=
  match summarySearch html with
  | some cap =>
    if 500 < (cleanSummary cap).length
    then (cleanSummary cap).take 500 ++ ellipsisStr
    else cleanSummary cap
  | none => noSummaryStr

/-- `extract_movie_details`: the four fields are computed by four
independent searches over the same content. -/
def extract_movie_details (html : List Char) : MovieDetails :=
  { name := extractName html
  , rating := extractRating html
  , year := extractYear html
  , summary := extractSummary html }

/-- `is_valid_html_page`: both Persian markers occur in the content. -/
def is_valid_html_page (content : List Char) : Bool :=
  containsSub markerDetails content && containsSub labelName content

/-! ### Response classifier (`check_q`) -/

/-- Parsed JSON values, as returned by `json.loads`. -/
inductive Json where
  | null : Json
  | bool (b : Bool) : Json
  | num (n : Int) : Json
  | str (s : List Char) : Json
  | arr (xs : List Json) : Json
  | obj (fields : List (List Char × Json)) : Json

/-- Python exceptions relevant to `check_q` (all subclasses of
`Exception`): `requests.RequestException` for transport failures
(timeout, connection error, DNS failure, protocol error),
`json.JSONDecodeError`, `AttributeError` from `.get` on a non-dict,
and a catch-all for any other `Exception`. -/
inductive PyExn where
  | requestException : PyExn
  | jsonDecodeError : PyExn
  | attributeError : PyExn
  | otherException : PyExn
deriving DecidableEq

/-- An HTTP response as observed by `check_q`: status code, body text,
and the outcome of `json.loads` applied to the stripped body (`some`
models a successful parse; `none` models `json.JSONDecodeError`). -/
structure HttpResponse where
  status : Nat
  text : List Char
  loads : Option Json

/-- Behaviour of one `requests.get` call: either a response, or an
exception raised while performing the request or decoding its body. -/
inductive FetchOutcome where
  | resp (r : HttpResponse) : FetchOutcome
  | raise (e : PyExn) : FetchOutcome

/-- Payload of a valid result: the parsed JSON object, or the record
extracted from the HTML page. -/
inductive QDetails where
  | jsonD (payload : Json) : QDetails
  | htmlD (d : MovieDetails) : QDetails

/-- A valid result as built by `check_q`:
`{"q": ..., "status": "active", "type": ..., "details": ...}`. -/
structure QResult where
  q : List Char
  status : List Char
  qtype : List Char
  details : QDetails

/-- First-match association lookup, modelling `dict.get` on the unique
keys of a parsed JSON object (`none` is Python's `None` default). -/
def lookupField : List (List Char × Json) → List Char → Option Json
  | [], _ => none
  | (k, v) :: rest, key => if k = key then some v else lookupField rest key

/-- Python's `x is True`: identity with the boolean singleton `True`. -/
def isTrueJson : Option Json → Bool
  | some (Json.bool true) => true
  | _ => false

/-- Does the parsed JSON carry `{"ok": true}`?  Mirrors
`data.get("ok") is True` on a dict; `false` for non-dict values (where
the code instead raises `AttributeError`, see `check_q_body`). -/
def jsonOkTrue : Json → Bool
  | Json.obj fields => isTrueJson (lookupField fields okKey)
  | _ => false

/-- The `if data.get("ok") is True: ... else: return None` step on a
successfully parsed body.  On a non-dict value, `.get` raises
`AttributeError`, which the inner `except json.JSONDecodeError`
handler does not catch. -/
def classifyParsed (q_value : List Char) (data : Json) :
    Except PyExn (Option QResult) :=
  match data with
  | Json.obj fields =>
    if isTrueJson (lookupField fields okKey)
    then Except.ok (some
      { q := q_value, status := activeStr, qtype := jsonTypeStr
      , details := QDetails.jsonD (Json.obj fields) })
    else Except.ok none
  | _ => Except.error PyExn.attributeError

/-- The HTML fallback taken when `json.loads` raised
`JSONDecodeError`: marker check, then extraction. -/
def classifyHtml (q_value content : List Char) : Option QResult :=
  if is_valid_html_page content
  then some
    { q := q_value, status := activeStr, qtype := htmlTypeStr
    , details := QDetails.htmlD (extract_movie_details content) }
  else none

/-- Classification of a received response (`check_q` lines 90-118):
non-200 is rejected, then the stripped body is tried as JSON, falling
back to the HTML path only on a JSON parse failure. -/
def classifyBody (q_value : List Char) (response : HttpResponse) :
    Except PyExn (Option QResult) :=
  if response.status ≠ 200 then Except.ok none
  else
    match response.loads with
    | some data => classifyParsed q_value data
    | none => Except.ok (classifyHtml q_value (pyStrip response.text))

/-- Body of the outer `try` in `check_q`, given the behaviour of the
network call for `q_value`.  `Except.error` marks an exception
propagating out of this block into the outer handlers. -/
def check_q_body (fetch : List Char → FetchOutcome) (q_value : List Char) :
    Except PyExn (Option QResult) :=
  match fetch q_value with
  | FetchOutcome.raise e => Except.error e
  | FetchOutcome.resp response => classifyBody q_value response

/-- `check_q` as seen by its caller: the `try` body guarded by
`except requests.RequestException: return None` and
`except Exception: return None`, which catch every modelled exception.
An `Except.error` result would mean an exception reached the caller. -/
def check_q (fetch : List Char → FetchOutcome) (q_value : List Char) :
    Except PyExn (Option QResult) :=
  match check_q_body fetch q_value with
  | Except.error _ => Except.ok none
  | Except.ok r => Except.ok r

/-- The value `future.result()` yields in the collection loop
(`check_q` never raises, see the totality theorem). -/
def check_q_opt (fetch : List Char → FetchOutcome) (q_value : List Char) :
    Option QResult :=
  match check_q fetch q_value with
  | Except.ok r => r
  | Except.error _ => none

/-! ### Verification engine (`main`, lines 170-194) -/

/-- Sort key order used by `sorted(success_items, key=lambda x: x["q"])`:
ascending lexicographic comparison of the candidate tokens. -/
def qKeyLe (a b : QResult) : Prop := lexLe a.q b.q = true

instance : DecidableRel qKeyLe := fun a b => by
  unfold qKeyLe; infer_instance

/-- The `as_completed` collection loop: `order` lists the candidates in
completion order, `acc` accumulates the valid results in that order,
`i` is the completion counter `enumerate(..., 1)` reaches. -/
def collectLoop (fetch : List Char → FetchOutcome) :
    List (List Char) → List QResult → Nat → List QResult × Nat
  | [], acc, i => (acc, i)
  | q :: rest, acc, i =>
    match check_q_opt fetch q with
    | some r => collectLoop fetch rest (acc ++ (r :: [])) (i + 1)
    | none => collectLoop fetch rest acc (i + 1)

/-- Aggregate state at run end: the completion counter and the sorted
valid-results collection. -/
structure RunOutput where
  completed_count : Nat
  success_items : List QResult

/-- The engine run over a batch whose futures complete in the order
`order`: collect all results, then re-sort by token.  Python's `sorted`
is a stable ascending sort, modelled by the (stable) insertion sort. -/
def runEngine (fetch : List Char → FetchOutcome) (order : List (List Char)) :
    RunOutput :=
  { completed_count := (collectLoop fetch order ([]) 0).2
  , success_items := List.insertionSort qKeyLe (collectLoop fetch order ([]) 0).1 }

/-- The stream of `ProbeResult`s observed at the aggregation point, in
completion order: each completed future pairs its candidate with the
value `check_q` returned for it. -/
def probeStream (fetch : List Char → FetchOutcome) (order : List (List Char)) :
    List (List Char × Option QResult) :=
  order.map fun q => (q, check_q_opt fetch q)

/-! ### Bounded worker pool (`ThreadPoolExecutor(max_workers=K)`)

The pool is modelled as a transition system: pending candidates wait in
the submission queue, at most `K` occupy worker slots (`running`), and
completed ones move to `done`.  The `start` rule carries the pool's
admission control: a task starts only when a worker slot is free. -/

/-- State of the worker pool during a run. -/
structure PoolState where
  pending : List (List Char)
  running : List (List Char)
  done : List (List Char)

/-- One scheduler step of a pool with `K` worker slots. -/
inductive PoolStep (K : Nat) : PoolState → PoolState → Prop
  | start (q : List Char) (pending running done : List (List Char)) :
      running.length < K →
      PoolStep K ⟨q :: pending, running, done⟩ ⟨pending, q :: running, done⟩
  | complete (q : List Char) (l1 l2 pending done : List (List Char)) :
      PoolStep K ⟨pending, l1 ++ q :: l2, done⟩ ⟨pending, l1 ++ l2, q :: done⟩

/-- Initial pool state: the whole batch pending, no probe in flight. -/
def initPool (batch : List (List Char)) : PoolState :=
  ⟨batch, ([]), ([])⟩

/-- States the pool can reach during a run over `batch`. -/
def PoolReachable (K : Nat) (batch : List (List Char)) (s : PoolState) : Prop :=
  Relation.ReflTransGen (PoolStep K) (initPool batch) s

/-! ### Concrete inputs used by witnesses and counterexamples -/

/-- A sample candidate token. -/
def aaTok : List Char := "aa".toList

/-- A second sample candidate token. -/
def bbTok : List Char := "bb".toList

/-- An endpoint behaviour where every request raises a transport error. -/
def fetchRaise : List Char → FetchOutcome := fun _ =>
  FetchOutcome.raise PyExn.requestException

/-- The body text `{"ok": true}`. -/
def okTrueBody : List Char := "\x7b\"ok\": true\x7d".toList

/-- The parsed value of `{"ok": true}`. -/
def okTrueJson : Json := Json.obj ((okKey, Json.bool true) :: [])

/-- An endpoint answering 200 with `{"ok": true}` for every token. -/
def fetchOkTrue : List Char → FetchOutcome := fun _ =>
  FetchOutcome.resp { status := 200, text := okTrueBody, loads := some okTrueJson }

/-- A batch containing the same token twice. -/
def dupBatch : List (List Char) := aaTok :: aaTok :: []

/-- A batch of two distinct tokens, out of order. -/
def twoBatch : List (List Char) := bbTok :: aaTok :: []

/-- The body text `{"ok": false}`. -/
def okFalseBody : List Char := "\x7b\"ok\": false\x7d".toList

/-- The parsed value of `{"ok": false}`. -/
def okFalseJson : Json := Json.obj ((okKey, Json.bool false) :: [])

/-- A 200 response whose body is `{"ok": false}`. -/
def respOkFalse : HttpResponse :=
  { status := 200, text := okFalseBody, loads := some okFalseJson }

/-- An endpoint answering 200 with `{"ok": false}` for every token. -/
def fetchOkFalse : List Char → FetchOutcome := fun _ =>
  FetchOutcome.resp respOkFalse

/-- A 404 response whose body would classify as valid JSON were the
status ignored. -/
def resp404 : HttpResponse :=
  { status := 404, text := okTrueBody, loads := some okTrueJson }

/-- An endpoint answering 404 for every token. -/
def fetch404 : List Char → FetchOutcome := fun _ => FetchOutcome.resp resp404


/-- A summary span of 501 identical characters. -/
def w7cap : List Char := List.replicate 501 'a'

/-- An HTML body whose summary span has 501 characters. -/
def w7html : List Char := labelSummary ++ " <p>".toList ++ w7cap ++ "</p>".toList

/-- An HTML body with name, rating and summary but no year label. -/
def w8html : List Char :=
  "جزئیات فیلم/سریال نام: <b>Inception</b> امتیاز: <i>8.8/10</i> خلاصه: <p>A mind-bending thriller</p>".toList

/-- Modelled from the spec (§4.2): the claimed rating shape
`<digits>.<digits>/10` — one or more digits, a dot, one or more digits,
then the literal `/10`, as a full match of the field value. -/
def specRatingShape (s : List Char) : Bool :=
  match s.dropWhile isDigitChar with
  | '.' :: r2 =>
    !(s.takeWhile isDigitChar).isEmpty &&
    !(r2.takeWhile isDigitChar).isEmpty &&
    decide (r2.dropWhile isDigitChar = ('/' :: '1' :: '0' :: []))
  | _ => false

/-- An HTML body whose rating field captures `5/10` (no dot). -/
def w9html : List Char := "امتیاز: <b>5/10<x".toList

/-- An HTML body whose rating field captures `7.5/10`. -/
def w9bhtml : List Char := "امتیاز: <b>7.5/10<x".toList

/-- A pool state with one probe in flight. -/
def poolW : PoolState := { pending := ([]), running := aaTok :: [], done := ([]) }


/-! ### Helper lemmas -/

theorem lexLe_total : ∀ x y : List Char, lexLe x y = true ∨ lexLe y x = true := by
  intro x
  induction x with
  | nil => intro y; left; rfl
  | cons a as ih =>
    intro y
    cases y with
    | nil => right; rfl
    | cons b bs =>
      simp only [lexLe]
      by_cases h : a.toNat = b.toNat
      · rw [if_pos h, if_pos h.symm]
        exact ih bs
      · have h2 : b.toNat ≠ a.toNat := fun hh => h hh.symm
        rw [if_neg h, if_neg h2, decide_eq_true_eq, decide_eq_true_eq]
        omega

theorem lexLe_trans : ∀ x y z : List Char,
    lexLe x y = true → lexLe y z = true → lexLe x z = true := by
  intro x
  induction x with
  | nil => intro y z _ _; rfl
  | cons a as ih =>
    intro y z h1 h2
    cases y with
    | nil => exact absurd h1 (by simp [lexLe])
    | cons b bs =>
      cases z with
      | nil => exact absurd h2 (by simp [lexLe])
      | cons c cs =>
        simp only [lexLe] at h1 h2 ⊢
        by_cases hab : a.toNat = b.toNat
        · rw [if_pos hab] at h1
          by_cases hbc : b.toNat = c.toNat
          · rw [if_pos hbc] at h2
            rw [if_pos (hab.trans hbc)]
            exact ih bs cs h1 h2
          · rw [if_neg hbc, decide_eq_true_eq] at h2
            have hac : a.toNat ≠ c.toNat := by omega
            rw [if_neg hac, decide_eq_true_eq]
            omega
        · rw [if_neg hab, decide_eq_true_eq] at h1
          by_cases hbc : b.toNat = c.toNat
          · have hac : a.toNat ≠ c.toNat := by omega
            rw [if_neg hac, decide_eq_true_eq]
            omega
          · rw [if_neg hbc, decide_eq_true_eq] at h2
            have hac : a.toNat ≠ c.toNat := by omega
            rw [if_neg hac, decide_eq_true_eq]
            omega

instance : IsTotal QResult qKeyLe :=
  ⟨fun a b => lexLe_total a.q b.q⟩

instance : IsTrans QResult qKeyLe :=
  ⟨fun a b c h1 h2 => lexLe_trans a.q b.q c.q h1 h2⟩

theorem collectLoop_snd (fetch : List Char → FetchOutcome) :
    ∀ (l : List (List Char)) (acc : List QResult) (i : Nat),
      (collectLoop fetch l acc i).2 = i + l.length := by
  intro l
  induction l with
  | nil => intro acc i; simp [collectLoop]
  | cons q rest ih =>
    intro acc i
    simp only [collectLoop]
    cases hq : check_q_opt fetch q <;> simp [hq, ih] <;> omega

theorem collectLoop_fst (fetch : List Char → FetchOutcome) :
    ∀ (l : List (List Char)) (acc : List QResult) (i : Nat),
      (collectLoop fetch l acc i).1 = acc ++ l.filterMap (check_q_opt fetch) := by
  intro l
  induction l with
  | nil => intro acc i; simp [collectLoop]
  | cons q rest ih =>
    intro acc i
    simp only [collectLoop, List.filterMap_cons]
    cases hq : check_q_opt fetch q <;> simp [hq, ih]

theorem classifyParsed_q (q : List Char) (data : Json) (r : QResult)
    (h : classifyParsed q data = Except.ok (some r)) : r.q = q := by
  cases data with
  | obj fields =>
    unfold classifyParsed at h
    have h2 : (if isTrueJson (lookupField fields okKey)
        then Except.ok (some
          { q := q, status := activeStr, qtype := jsonTypeStr
          , details := QDetails.jsonD (Json.obj fields) })
        else Except.ok (none : Option QResult)) = Except.ok (some r) := h
    by_cases ht : isTrueJson (lookupField fields okKey) = true
    · rw [if_pos ht] at h2
      injection h2 with h3
      injection h3 with h4
      rw [← h4]
    · rw [if_neg ht] at h2
      exact absurd h2 (by simp)
  | null => exact absurd h (by simp [classifyParsed])
  | bool b => exact absurd h (by simp [classifyParsed])
  | num n => exact absurd h (by simp [classifyParsed])
  | str s => exact absurd h (by simp [classifyParsed])
  | arr xs => exact absurd h (by simp [classifyParsed])

theorem classifyHtml_q (q content : List Char) (r : QResult)
    (h : classifyHtml q content = some r) : r.q = q := by
  unfold classifyHtml at h
  by_cases hv : is_valid_html_page content = true
  · rw [if_pos hv] at h
    injection h with h2
    rw [← h2]
  · rw [if_neg hv] at h
    exact absurd h (by simp)

theorem classifyBody_q (q : List Char) (resp : HttpResponse) (r : QResult)
    (h : classifyBody q resp = Except.ok (some r)) : r.q = q := by
  unfold classifyBody at h
  by_cases hs : resp.status ≠ 200
  · rw [if_pos hs] at h
    exact absurd h (by simp)
  · rw [if_neg hs] at h
    cases hl : resp.loads with
    | some data =>
      rw [hl] at h
      exact classifyParsed_q q data r h
    | none =>
      rw [hl] at h
      injection h with h2
      exact classifyHtml_q q (pyStrip resp.text) r h2

theorem check_q_opt_q (fetch : List Char → FetchOutcome) (q : List Char)
    (r : QResult) (h : check_q_opt fetch q = some r) : r.q = q := by
  unfold check_q_opt check_q at h
  cases hb : check_q_body fetch q with
  | error e =>
    rw [hb] at h
    exact absurd h (by simp)
  | ok o =>
    rw [hb] at h
    have h2 : o = some r := h
    unfold check_q_body at hb
    cases hf : fetch q with
    | raise e =>
      rw [hf] at hb
      have hb2 : Except.error e = Except.ok o := hb
      exact absurd hb2 (by simp)
    | resp resp =>
      rw [hf] at hb
      have hb2 : classifyBody q resp = Except.ok o := hb
      exact classifyBody_q q resp r (by rw [hb2, h2])

theorem filterMap_q_sublist (fetch : List Char → FetchOutcome) :
    ∀ l : List (List Char),
      ((l.filterMap (check_q_opt fetch)).map QResult.q).Sublist l := by
  intro l
  induction l with
  | nil => simp
  | cons q rest ih =>
    rw [List.filterMap_cons]
    cases hq : check_q_opt fetch q with
    | none => exact ih.cons q
    | some r =>
      rw [List.map_cons, check_q_opt_q fetch q r hq]
      exact ih.cons₂ q

theorem mem_takeWhile_pred (p : Char → Bool) :
    ∀ (l : List Char) (c : Char), c ∈ l.takeWhile p → p c = true := by
  intro l
  induction l with
  | nil => intro c hc; simp [List.takeWhile] at hc
  | cons a rest ih =>
    intro c hc
    by_cases hp : p a = true
    · rw [List.takeWhile_cons_of_pos hp] at hc
      rcases List.mem_cons.mp hc with rfl | hc2
      · exact hp
      · exact ih c hc2
    · rw [List.takeWhile_cons_of_neg (by simpa using hp)] at hc
      simp at hc

theorem dropWhile_no_space (s : List Char)
    (h : ∀ c ∈ s, isSpaceChar c = false) : s.dropWhile isSpaceChar = s := by
  cases s with
  | nil => rfl
  | cons a l =>
    exact List.dropWhile_cons_of_neg (by simp [h a (List.mem_cons_self a l)])

theorem pyStrip_of_no_space (s : List Char)
    (h : ∀ c ∈ s, isSpaceChar c = false) : pyStrip s = s := by
  unfold pyStrip
  rw [dropWhile_no_space s h,
    dropWhile_no_space s.reverse (fun c hc => h c (List.mem_reverse.mp hc)),
    List.reverse_reverse]

theorem digitDot_not_space (c : Char)
    (h : digitDotB c = true) : isSpaceChar c = false := by
  by_contra hc
  rw [Bool.not_eq_false] at hc
  simp only [isSpaceChar, Bool.or_eq_true, decide_eq_true_eq] at hc
  rcases hc with ((((rfl | rfl) | rfl) | rfl) | rfl) | rfl <;>
    exact absurd h (by decide)

theorem reSearch_some (label : List Char) (m : List Char → Option (List Char)) :
    ∀ (s r : List Char), reSearch label m s = some r → ∃ s2, m s2 = some r := by
  intro s
  induction s with
  | nil =>
    intro r h
    simp only [reSearch] at h
    rcases Option.bind_eq_some.mp h with ⟨s2, _, hm⟩
    exact ⟨s2, hm⟩
  | cons c rest ih =>
    intro r h
    simp only [reSearch] at h
    cases hm : (dropPre label (c :: rest)).bind m with
    | some r2 =>
      rw [hm] at h
      rcases Option.bind_eq_some.mp hm with ⟨s2, _, hm2⟩
      injection h with h2
      exact ⟨s2, h2 ▸ hm2⟩
    | none =>
      rw [hm] at h
      exact ih r h

theorem ratingTail_shape (run rest cap : List Char)
    (h : ratingTail run rest = some cap) :
    run ≠ [] ∧ cap = run ++ ('/' :: '1' :: '0' :: []) := by
  unfold ratingTail at h
  by_cases he : run.isEmpty = true
  · rw [if_pos he] at h
    exact absurd h (by simp)
  · rw [if_neg he] at h
    by_cases hp : hasPrefixL ('/' :: '1' :: '0' :: '<' :: []) rest = true
    · rw [if_pos hp] at h
      injection h with h2
      refine ⟨?_, h2.symm⟩
      intro hrun
      exact he (by simp [hrun])
    · rw [if_neg hp] at h
      exact absurd h (by simp)

theorem check_q_none_cases (fetch : List Char → FetchOutcome) (q : List Char)
    (resp : HttpResponse) (hf : fetch q = FetchOutcome.resp resp)
    (hb : classifyBody q resp = Except.ok none ∨
      ∃ e, classifyBody q resp = Except.error e) :
    check_q fetch q = Except.ok none := by
  unfold check_q check_q_body
  rw [hf]
  have h2 : (match classifyBody q resp with
      | Except.error _ => Except.ok none
      | Except.ok r => Except.ok r : Except PyExn (Option QResult)) =
      Except.ok none := by
    rcases hb with hb | ⟨e, hb⟩ <;> rw [hb]
  exact h2

theorem matchRating_shape (s cap : List Char) (h : matchRating s = some cap) :
    ∃ run : List Char, run ≠ [] ∧
      (∀ c ∈ run, digitDotB c = true) ∧
      cap = run ++ ('/' :: '1' :: '0' :: []) := by
  unfold matchRating at h
  rcases Option.bind_eq_some.mp h with ⟨s4, _, hm⟩
  obtain ⟨hne, hcap⟩ := ratingTail_shape _ _ _ hm
  exact ⟨s4.takeWhile digitDotB, hne,
    fun c hc => mem_takeWhile_pred _ s4 c hc, hcap⟩

/-! ### Claim theorems -/

/-- C10: the probe operation is total.  For every candidate token and
every endpoint behaviour — any status, any body, or any raised
exception — `check_q` returns a value (a result or `none` meaning
Invalid) and never lets an exception reach its caller. -/
theorem check_q_never_raises (fetch : List Char → FetchOutcome) (q : List Char) :
    ∃ o : Option QResult, check_q fetch q = Except.ok o := by
  unfold check_q
  cases check_q_body fetch q with
  | error e => exact ⟨none, rfl⟩
  | ok r => exact ⟨r, rfl⟩

/-- C6: every response whose status code is not 200 classifies as
Invalid, regardless of the body content. -/
theorem non_200_is_invalid (fetch : List Char → FetchOutcome) (q : List Char)
    (resp : HttpResponse) (hf : fetch q = FetchOutcome.resp resp)
    (hs : resp.status ≠ 200) :
    check_q fetch q = Except.ok none := by
  apply check_q_none_cases fetch q resp hf
  left
  unfold classifyBody
  rw [if_pos hs]

/-- Witness for C6: a 404 response whose body would otherwise classify
as valid JSON still yields Invalid. -/
theorem non_200_is_invalid_witness :
    fetch404 aaTok = FetchOutcome.resp resp404 ∧ resp404.status ≠ 200 ∧
    check_q fetch404 aaTok = Except.ok none :=
  ⟨rfl, by decide, non_200_is_invalid fetch404 aaTok resp404 rfl (by decide)⟩

/-- C5: a transport-level failure (modelled by
`requests.RequestException`, covering timeout, connection error, DNS
failure and protocol error) makes the probe return Invalid; the failure
never propagates past the probe boundary (`Except.ok`), and the
candidate is still counted: the completion counter always reaches the
full length of the completion sequence. -/
theorem transport_error_is_invalid (fetch : List Char → FetchOutcome)
    (q : List Char) (h : fetch q = FetchOutcome.raise PyExn.requestException) :
    check_q fetch q = Except.ok none ∧
    ∀ order : List (List Char),
      (runEngine fetch order).completed_count = order.length := by
  constructor
  · unfold check_q check_q_body
    rw [h]
  · intro order
    simp [runEngine, collectLoop_snd]

/-- Witness for C5 at a concrete always-failing endpoint. -/
theorem transport_error_is_invalid_witness :
    fetchRaise aaTok = FetchOutcome.raise PyExn.requestException ∧
    (check_q fetchRaise aaTok = Except.ok none ∧
     ∀ order : List (List Char),
       (runEngine fetchRaise order).completed_count = order.length) :=
  ⟨rfl, transport_error_is_invalid fetchRaise aaTok rfl⟩

/-- C3: a 200 response whose body parses as valid JSON but whose `ok`
field is absent or not boolean `true` classifies as Invalid; the body
never reaches the HTML path, whatever text it contains.  (On a non-dict
JSON value the code's `.get` raises `AttributeError`, caught by the
outer handler — still Invalid.) -/
theorem json_without_ok_is_invalid (fetch : List Char → FetchOutcome)
    (q : List Char) (resp : HttpResponse) (j : Json)
    (hf : fetch q = FetchOutcome.resp resp) (hs : resp.status = 200)
    (hj : resp.loads = some j) (hok : jsonOkTrue j = false) :
    check_q fetch q = Except.ok none := by
  apply check_q_none_cases fetch q resp hf
  have hcb : classifyBody q resp = classifyParsed q j := by
    unfold classifyBody
    rw [if_neg (by simp [hs]), hj]
  cases j with
  | obj fields =>
    left
    rw [hcb]
    have ht : isTrueJson (lookupField fields okKey) = false := by
      simpa [jsonOkTrue] using hok
    show (if isTrueJson (lookupField fields okKey)
        then Except.ok (some
          { q := q, status := activeStr, qtype := jsonTypeStr
          , details := QDetails.jsonD (Json.obj fields) })
        else Except.ok (none : Option QResult)) = Except.ok none
    rw [if_neg (by simp [ht])]
  | null => exact Or.inr ⟨PyExn.attributeError, by rw [hcb]; rfl⟩
  | bool b => exact Or.inr ⟨PyExn.attributeError, by rw [hcb]; rfl⟩
  | num n => exact Or.inr ⟨PyExn.attributeError, by rw [hcb]; rfl⟩
  | str s => exact Or.inr ⟨PyExn.attributeError, by rw [hcb]; rfl⟩
  | arr xs => exact Or.inr ⟨PyExn.attributeError, by rw [hcb]; rfl⟩

/-- Witness for C3: status 200 with body `{"ok": false}` is Invalid. -/
theorem json_without_ok_is_invalid_witness :
    fetchOkFalse aaTok = FetchOutcome.resp respOkFalse ∧
    respOkFalse.status = 200 ∧ respOkFalse.loads = some okFalseJson ∧
    jsonOkTrue okFalseJson = false ∧
    check_q fetchOkFalse aaTok = Except.ok none :=
  ⟨rfl, rfl, rfl, by decide,
    json_without_ok_is_invalid fetchOkFalse aaTok respOkFalse okFalseJson
      rfl rfl rfl (by decide)⟩

theorem probeStream_fst (fetch : List Char → FetchOutcome) :
    ∀ order : List (List Char),
      (probeStream fetch order).map Prod.fst = order := by
  intro order
  induction order with
  | nil => rfl
  | cons q rest ih =>
    simp only [probeStream, List.map_cons] at ih ⊢
    rw [ih]

/-- C1: for every candidate batch, whatever completion order the
concurrent probes produce (any permutation of the batch), the run ends
with `completed_count` equal to the batch length, the stream of
ProbeResults carries exactly one result per submitted candidate (none
skipped, none duplicated), and the engine processes the full batch. -/
theorem engine_completes_full_batch (fetch : List Char → FetchOutcome)
    (batch order : List (List Char)) (hp : order.Perm batch) :
    (runEngine fetch order).completed_count = batch.length ∧
    ((probeStream fetch order).map Prod.fst).Perm batch ∧
    (probeStream fetch order).length = batch.length := by
  refine ⟨?_, ?_, ?_⟩
  · simp [runEngine, collectLoop_snd, hp.length_eq]
  · rw [probeStream_fst]
    exact hp
  · simp [probeStream, hp.length_eq]

/-- Witness for C1: a two-token batch against an all-failing endpoint
still completes both probes. -/
theorem engine_completes_full_batch_witness :
    twoBatch.Perm twoBatch ∧
    ((runEngine fetchRaise twoBatch).completed_count = twoBatch.length ∧
     ((probeStream fetchRaise twoBatch).map Prod.fst).Perm twoBatch ∧
     (probeStream fetchRaise twoBatch).length = twoBatch.length) :=
  ⟨List.Perm.refl twoBatch,
    engine_completes_full_batch fetchRaise twoBatch twoBatch
      (List.Perm.refl twoBatch)⟩

/-- Counterexample to C2 as stated: the engine does not deduplicate.
On the batch `["aa", "aa"]` with an endpoint that accepts every token,
the returned collection contains the token `"aa"` twice, so it is not
duplicate-free for every candidate batch. -/
theorem engine_output_duplicate_counterexample :
    ¬ (((runEngine fetchOkTrue dupBatch).success_items.map QResult.q).Nodup) := by
  decide

/-- C2 (amended): for every batch of pairwise-distinct candidate
tokens, whatever completion order the probes produce, the returned
valid-results collection is sorted ascending lexicographically by token
and contains no duplicate tokens. -/
theorem engine_output_sorted_nodup (fetch : List Char → FetchOutcome)
    (batch order : List (List Char)) (hp : order.Perm batch)
    (hnd : batch.Nodup) :
    ((runEngine fetch order).success_items.map QResult.q).Pairwise
      (fun a b => lexLe a b = true) ∧
    ((runEngine fetch order).success_items.map QResult.q).Nodup := by
  constructor
  · have hs : List.Sorted qKeyLe ((runEngine fetch order).success_items) := by
      simp only [runEngine]
      exact List.sorted_insertionSort qKeyLe _
    exact List.pairwise_map.mpr hs
  · have hord : order.Nodup := hp.nodup_iff.mpr hnd
    have hnd2 : ((order.filterMap (check_q_opt fetch)).map QResult.q).Nodup :=
      (filterMap_q_sublist fetch order).nodup hord
    have hperm : (runEngine fetch order).success_items.Perm
        (order.filterMap (check_q_opt fetch)) := by
      simp only [runEngine, collectLoop_fst, List.nil_append]
      exact List.perm_insertionSort qKeyLe _
    exact ((hperm.map QResult.q).nodup_iff).mpr hnd2

/-- Witness for C2 (amended): two distinct tokens submitted out of
order against an all-accepting endpoint come back sorted and
duplicate-free. -/
theorem engine_output_sorted_nodup_witness :
    twoBatch.Nodup ∧
    (((runEngine fetchOkTrue twoBatch).success_items.map QResult.q).Pairwise
       (fun a b => lexLe a b = true) ∧
     ((runEngine fetchOkTrue twoBatch).success_items.map QResult.q).Nodup) :=
  ⟨by decide,
    engine_output_sorted_nodup fetchOkTrue twoBatch twoBatch
      (List.Perm.refl twoBatch) (by decide)⟩

/-- C7: whenever the summary pattern captures a span, the summary field
is the cleaned span (tags stripped, whitespace collapsed, ends
stripped), truncated to exactly 500 characters plus the ellipsis marker
when the cleaned span exceeds 500 characters, and returned untouched
otherwise. -/
theorem summary_truncation (html cap : List Char)
    (h : summarySearch html = some cap) :
    ((cleanSummary cap).length ≤ 500 →
      (extract_movie_details html).summary = cleanSummary cap) ∧
    (500 < (cleanSummary cap).length →
      (extract_movie_details html).summary =
        (cleanSummary cap).take 500 ++ ellipsisStr ∧
      ((cleanSummary cap).take 500).length = 500) := by
  constructor
  · intro hle
    simp [extract_movie_details, extractSummary, h, Nat.not_lt.mpr hle]
  · intro hgt
    constructor
    · simp [extract_movie_details, extractSummary, h, hgt]
    · rw [List.length_take]
      omega

set_option maxRecDepth 4000 in
/-- Witness for C7: a 501-character summary is truncated to 500
characters plus the ellipsis. -/
theorem summary_truncation_witness :
    summarySearch w7html = some w7cap ∧
    500 < (cleanSummary w7cap).length ∧
    (extract_movie_details w7html).summary =
      (cleanSummary w7cap).take 500 ++ ellipsisStr := by
  have h1 : summarySearch w7html = some w7cap := by decide
  have h2 : 500 < (cleanSummary w7cap).length := by decide
  exact ⟨h1, h2, ((summary_truncation w7html w7cap h1).2 h2).1⟩

/-- C8: the four fields are extracted independently; when the year
pattern finds no match the year field is its default `"Unknown"` while
the other three fields are exactly what their standalone extractions
produce on the same body. -/
theorem year_missing_defaults_independently (html : List Char)
    (h : yearSearch html = none) :
    extract_movie_details html =
      { name := extractName html, rating := extractRating html
      , year := unknownStr, summary := extractSummary html } := by
  simp [extract_movie_details, extractYear, h]

/-- Witness for C8: a body missing the year label. -/
theorem year_missing_defaults_independently_witness :
    yearSearch w8html = none ∧
    extract_movie_details w8html =
      { name := extractName w8html, rating := extractRating w8html
      , year := unknownStr, summary := extractSummary w8html } :=
  ⟨by decide, year_missing_defaults_independently w8html (by decide)⟩

/-- Counterexample to C9 as stated: on `w9html` the extractor returns
the non-default rating `5/10`, which does not match the claimed shape
`<digits>.<digits>/10` (it has no dot). -/
theorem rating_shape_counterexample :
    extractRating w9html ≠ unknownStr ∧
    specRatingShape (extractRating w9html) = false := by
  decide

/-- C9 (amended): whenever the extractor returns a non-default rating,
that rating is a non-empty run of characters drawn from digits-and-dot
(`[\d.]+`) followed by the literal `/10`, taken as the first such value
following the rating label. -/
theorem rating_has_relaxed_shape (html r : List Char)
    (h1 : extractRating html = r) (h2 : r ≠ unknownStr) :
    ∃ run : List Char, run ≠ [] ∧
      (∀ c ∈ run, digitDotB c = true) ∧
      r = run ++ ('/' :: '1' :: '0' :: []) := by
  unfold extractRating at h1
  cases hs : ratingSearch html with
  | none =>
    rw [hs] at h1
    exact absurd h1.symm h2
  | some cap =>
    rw [hs] at h1
    have h1b : pyStrip cap = r := h1
    obtain ⟨s2, hm⟩ :=
      reSearch_some labelRating matchRating html cap (by rw [← hs]; rfl)
    obtain ⟨run, hne, hall, hcap⟩ := matchRating_shape s2 cap hm
    have hnos : ∀ c ∈ cap, isSpaceChar c = false := by
      intro c hc
      rw [hcap] at hc
      rcases List.mem_append.mp hc with hin | hin
      · exact digitDot_not_space c (hall c hin)
      · simp only [List.mem_cons, List.not_mem_nil, or_false] at hin
        rcases hin with rfl | rfl | rfl <;> decide
    have hid : pyStrip cap = cap := pyStrip_of_no_space cap hnos
    exact ⟨run, hne, hall, by rw [← h1b, hid, hcap]⟩

/-- Witness for C9 (amended): the rating `7.5/10` decomposes as a
digits-and-dot run followed by `/10`. -/
theorem rating_has_relaxed_shape_witness :
    extractRating w9bhtml ≠ unknownStr ∧
    ∃ run : List Char, run ≠ [] ∧
      (∀ c ∈ run, digitDotB c = true) ∧
      extractRating w9bhtml = run ++ ('/' :: '1' :: '0' :: []) :=
  ⟨by decide,
    rating_has_relaxed_shape w9bhtml (extractRating w9bhtml) rfl (by decide)⟩

/-- C4: with `concurrency_limit = K`, no reachable state of the worker
pool has more than `K` probes in flight: admission control only starts
a probe when a worker slot is free, so the in-flight count never
exceeds `K` at any point of any run. -/
theorem pool_never_exceeds_limit (K : Nat) (batch : List (List Char))
    (s : PoolState) (h : PoolReachable K batch s) :
    s.running.length ≤ K := by
  unfold PoolReachable at h
  induction h with
  | refl => simp [initPool]
  | tail _ step ih =>
    cases step with
    | start q pending running done hlt =>
      simpa using Nat.succ_le_of_lt hlt
    | complete q l1 l2 pending done =>
      simp only [List.length_append, List.length_cons] at ih ⊢
      omega

/-- Witness for C4: after admitting one probe with `K = 1`, the
reachable state respects the limit. -/
theorem pool_never_exceeds_limit_witness :
    PoolReachable 1 (aaTok :: []) poolW ∧ poolW.running.length ≤ 1 := by
  have hr : PoolReachable 1 (aaTok :: []) poolW :=
    Relation.ReflTransGen.single
      (PoolStep.start aaTok ([]) ([]) ([]) (by decide))
  exact ⟨hr, pool_never_exceeds_limit 1 (aaTok :: []) poolW hr⟩
